import Mathlib

/-
Verification of the PPU core of the ludus NES emulator.

This file gives a shallow embedding, in Lean, of the PPU register file and
renderer of src/ppu.rs, and proves the testable properties stated in the
specification against it.  Machine integers (u8 / u16 / u32 / i32) are
embedded as Nat (or Int where the source value can go negative), with
explicit reduction modulo 2^w exactly where the source arithmetic can wrap.
The mapper trait object is embedded as a record of pure functions over an
abstract mapper-state type, threaded explicitly.
-/

namespace Ludus

set_option maxRecDepth 10000

/-- Mapper capability consumed by the PPU: pattern-table reads and writes and
the nametable mirroring fold, over an abstract mapper state of type a. -/
structure MapperOps (a : Type) where
  read : a → Nat → Nat
  write : a → Nat → Nat → a
  mirror : a → Nat → Nat

/-- Embedding of struct PPUState of src/ppu.rs.  The u8 and u16 fields are
Nat; bool fields are Bool.  Palette RAM, nametable RAM and OAM are lists of
bytes (lengths 32, 2048, 256 in every state the emulator builds). -/
structure PPUState where
  palettes : List Nat
  nametables : List Nat
  oam : List Nat
  v : Nat
  t : Nat
  w : Nat
  x : Nat
  register : Nat
  nmi_occurred : Bool
  nmi_output : Bool
  nmi_previous : Bool
  nmi_delay : Nat
  flg_nametable : Nat
  flg_increment : Nat
  flg_spritetable : Nat
  flg_backgroundtable : Nat
  flg_spritesize : Nat
  flg_masterslave : Nat
  flg_grayscale : Nat
  flg_showleftbg : Nat
  flg_showleftsprites : Nat
  flg_showbg : Nat
  flg_showsprites : Nat
  flg_redtint : Nat
  flg_greentint : Nat
  flg_bluetint : Nat
  flg_sprite0hit : Nat
  flg_spriteoverflow : Nat
  oam_address : Nat
  buffer_data : Nat
  deriving Repr, DecidableEq

/-- PPUState::default(): every field zero / false, memories zero-filled. -/
def default_state : PPUState where
  palettes := List.replicate 32 0
  nametables := List.replicate 2048 0
  oam := List.replicate 256 0
  v := 0
  t := 0
  w := 0
  x := 0
  register := 0
  nmi_occurred := false
  nmi_output := false
  nmi_previous := false
  nmi_delay := 0
  flg_nametable := 0
  flg_increment := 0
  flg_spritetable := 0
  flg_backgroundtable := 0
  flg_spritesize := 0
  flg_masterslave := 0
  flg_grayscale := 0
  flg_showleftbg := 0
  flg_showleftsprites := 0
  flg_showbg := 0
  flg_showsprites := 0
  flg_redtint := 0
  flg_greentint := 0
  flg_bluetint := 0
  flg_sprite0hit := 0
  flg_spriteoverflow := 0
  oam_address := 0
  buffer_data := 0

/-- PPUState::nmi_change (src/ppu.rs lines 170-176). -/
def nmi_change (s : PPUState) : PPUState :=
  let nmi := s.nmi_output && s.nmi_occurred
  let s := if nmi = true ∧ s.nmi_previous = false then { s with nmi_delay := 15 } else s
  { s with nmi_previous := nmi }

/-- NameTables::read: index modulo 2048 into the 2 KiB nametable RAM. -/
def nametables_read (s : PPUState) (addr : Nat) : Nat :=
  s.nametables.getD (addr % 2048) 0

/-- NameTables::write. -/
def nametables_write (s : PPUState) (addr val : Nat) : PPUState :=
  { s with nametables := s.nametables.set (addr % 2048) val }

/-- PPUState::read_palette (src/ppu.rs lines 212-219): addresses that are at
least 16 and divisible by 4 alias down by 16. -/
def read_palette (s : PPUState) (address : Nat) : Nat :=
  let wrapped := if 16 ≤ address ∧ address % 4 = 0 then address - 16 else address
  s.palettes.getD wrapped 0

/-- PPUState::write_palette (src/ppu.rs lines 221-228). -/
def write_palette (s : PPUState) (address val : Nat) : PPUState :=
  let wrapped := if 16 ≤ address ∧ address % 4 = 0 then address - 16 else address
  { s with palettes := s.palettes.set wrapped val }

/-- PPUState::read (src/ppu.rs lines 178-192).  After wrapping modulo 0x4000
the address always falls in one of the three regions, so the panicking
fall-through arm of the source is unreachable. -/
def ppu_read {a : Type} (mo : MapperOps a) (mst : a) (s : PPUState) (address : Nat) : Nat :=
  let wrapped := address % 0x4000
  if wrapped < 0x2000 then mo.read mst wrapped
  else if wrapped < 0x3F00 then nametables_read s (mo.mirror mst wrapped)
  else read_palette s (wrapped % 32)

/-- PPUState::write (src/ppu.rs lines 194-210). -/
def ppu_write {a : Type} (mo : MapperOps a) (mst : a) (s : PPUState) (address val : Nat) :
    PPUState × a :=
  let wrapped := address % 0x4000
  if wrapped < 0x2000 then (s, mo.write mst wrapped val)
  else if wrapped < 0x3F00 then (nametables_write s (mo.mirror mst wrapped) val, mst)
  else (write_palette s (wrapped % 32) val, mst)

/-- PPUState::read_status (src/ppu.rs lines 240-251). -/
def read_status (s : PPUState) : Nat × PPUState :=
  let res := s.register &&& 0x1F
  let res := res ||| (s.flg_spriteoverflow <<< 5)
  let res := res ||| (s.flg_sprite0hit <<< 6)
  let res := if s.nmi_occurred then res ||| (1 <<< 7) else res
  let s := { s with nmi_occurred := false }
  let s := nmi_change s
  let s := { s with w := 0 }
  (res, s)

/-- PPUState::read_oam_data (src/ppu.rs lines 253-255). -/
def read_oam_data (s : PPUState) : Nat :=
  s.oam.getD s.oam_address 0

/-- PPUState::read_data (src/ppu.rs lines 257-272).  The v increment is u16
arithmetic, hence the reduction modulo 65536. -/
def read_data {a : Type} (mo : MapperOps a) (mst : a) (s : PPUState) : Nat × PPUState :=
  let v := s.v
  let value := ppu_read mo mst s v
  let pair :=
    if v % 0x4000 < 0x3F00 then
      (s.buffer_data, { s with buffer_data := value })
    else
      (value, { s with buffer_data := ppu_read mo mst s (v - 0x1000) })
  let value := pair.1
  let s := pair.2
  let s :=
    if s.flg_increment = 0 then { s with v := (s.v + 1) % 65536 }
    else { s with v := (s.v + 32) % 65536 }
  (value, s)

/-- PPUState::read_register (src/ppu.rs lines 231-238). -/
def read_register {a : Type} (mo : MapperOps a) (mst : a) (s : PPUState) (address : Nat) :
    Nat × PPUState :=
  if address = 0x2002 then read_status s
  else if address = 0x2004 then (read_oam_data s, s)
  else if address = 0x2007 then read_data mo mst s
  else (0, s)

/-- PPUState::write_control (src/ppu.rs lines 290-300).  Note that the source
stores value AND 2 into flg_nametable (not value AND 3). -/
def write_control (s : PPUState) (value : Nat) : PPUState :=
  let s := { s with flg_nametable := value &&& 2 }
  let s := { s with flg_increment := (value >>> 2) &&& 1 }
  let s := { s with flg_spritetable := (value >>> 3) &&& 1 }
  let s := { s with flg_backgroundtable := (value >>> 4) &&& 1 }
  let s := { s with flg_spritesize := (value >>> 5) &&& 1 }
  let s := { s with flg_masterslave := (value >>> 6) &&& 1 }
  let s := { s with nmi_output := ((value >>> 7) &&& 1 = 1 : Bool) }
  let s := nmi_change s
  { s with t := (s.t &&& 0xF3FF) ||| ((value &&& 0x03) <<< 10) }

/-- PPUState::write_mask (src/ppu.rs lines 302-311). -/
def write_mask (s : PPUState) (value : Nat) : PPUState :=
  { s with
    flg_grayscale := value &&& 1
    flg_showleftbg := (value >>> 1) &&& 1
    flg_showleftsprites := (value >>> 2) &&& 1
    flg_showbg := (value >>> 3) &&& 1
    flg_showsprites := (value >>> 4) &&& 1
    flg_redtint := (value >>> 5) &&& 1
    flg_greentint := (value >>> 6) &&& 1
    flg_bluetint := (value >>> 7) &&& 1 }

/-- PPUState::write_oam_address (src/ppu.rs lines 313-315). -/
def write_oam_address (s : PPUState) (value : Nat) : PPUState :=
  { s with oam_address := value }

/-- PPUState::write_oam_data (src/ppu.rs lines 317-321): store, then
increment OAMADDR with u8 wrap-around. -/
def write_oam_data (s : PPUState) (value : Nat) : PPUState :=
  let s := { s with oam := s.oam.set s.oam_address value }
  { s with oam_address := (s.oam_address + 1) % 256 }

/-- PPUState::write_scroll (src/ppu.rs lines 323-333). -/
def write_scroll (s : PPUState) (value : Nat) : PPUState :=
  if s.w = 0 then
    { s with
      t := (s.t &&& 0x7FE0) ||| (value >>> 3)
      x := value &&& 0x7
      w := 1 }
  else
    let s1 := (value &&& 0x7) <<< 12
    { s with
      t := (s.t &&& 0xC1F) ||| ((value &&& 0xF8) <<< 2) ||| s1
      w := 0 }

/-- PPUState::write_address (src/ppu.rs lines 335-344). -/
def write_address (s : PPUState) (value : Nat) : PPUState :=
  if s.w = 0 then
    { s with
      t := (s.t &&& 0x80FF) ||| ((value &&& 0x3F) <<< 8)
      w := 1 }
  else
    let s := { s with t := (s.t &&& 0xFF00) ||| value }
    let s := { s with v := s.t }
    { s with w := 0 }

/-- PPUState::write_data (src/ppu.rs lines 346-354). -/
def write_data {a : Type} (mo : MapperOps a) (mst : a) (s : PPUState) (value : Nat) :
    PPUState × a :=
  let pair := ppu_write mo mst s s.v value
  let s := pair.1
  let s :=
    if s.flg_increment = 0 then { s with v := (s.v + 1) % 65536 }
    else { s with v := (s.v + 32) % 65536 }
  (s, pair.2)

/-- PPUState::write_register (src/ppu.rs lines 274-287): records the written
byte in the shadow register, then dispatches on the address. -/
def write_register {a : Type} (mo : MapperOps a) (mst : a) (s : PPUState)
    (address value : Nat) : PPUState × a :=
  let s := { s with register := value }
  if address = 0x2000 then (write_control s value, mst)
  else if address = 0x2001 then (write_mask s value, mst)
  else if address = 0x2003 then (write_oam_address s value, mst)
  else if address = 0x2004 then (write_oam_data s value, mst)
  else if address = 0x2005 then (write_scroll s value, mst)
  else if address = 0x2006 then (write_address s value, mst)
  else if address = 0x2007 then write_data mo mst s value
  else (s, mst)

/-- PPUState::increment_y (src/ppu.rs lines 370-385). -/
def increment_y (v0 : Nat) : Nat :=
  if v0 &&& 0x7000 ≠ 0x7000 then (v0 + 0x1000) % 65536
  else
    let v1 := v0 &&& 0x8FFF
    let vy : Nat × Nat :=
      match (v1 &&& 0x3E0) >>> 5 with
      | 29 => (v1 ^^^ 0x800, 0)
      | 31 => (v1, 0)
      | y => (v1, y + 1)
    (vy.1 &&& 0xFC1F) ||| (vy.2 <<< 5)

/-- PPUState::increment_x (src/ppu.rs lines 361-368). -/
def increment_x (v0 : Nat) : Nat :=
  if v0 &&& 0x001F = 31 then (v0 &&& 0xFFE0) ^^^ 0x0400
  else (v0 + 1) % 65536

/-- Mapper instance with a trivial unit state, used for concrete evaluations. -/
def null_mapper : MapperOps Unit where
  read := fun _ _ => 0
  write := fun u _ _ => u
  mirror := fun _ addr => addr % 2048

set_option maxRecDepth 8000 in
/-- C1: reading PPUSTATUS returns the documented byte, clears nmi_occurred,
resets w, recomputes the NMI edge (leaving nmi_previous false, since
nmi_occurred has just been cleared) and changes nothing else. -/
theorem c1_read_status_spec {a : Type} (mo : MapperOps a) (mst : a) (s : PPUState) :
    read_register mo mst s 0x2002 =
      ((((s.register &&& 0x1F) ||| (s.flg_spriteoverflow <<< 5)) |||
          (s.flg_sprite0hit <<< 6)) ||| ((if s.nmi_occurred then 1 else 0) <<< 7),
        { s with nmi_occurred := false, nmi_previous := false, w := 0 }) := by
  simp only [read_register, read_status, nmi_change]
  cases hocc : s.nmi_occurred <;> simp [hocc]

/-- C5: palette aliasing.  Addresses that are at least 16 and divisible by 4
alias to address minus 16 on both read and write, in every palette state. -/
theorem c5_palette_alias (s : PPUState) :
    (read_palette s 0x10 = read_palette s 0x00 ∧
     read_palette s 0x14 = read_palette s 0x04 ∧
     read_palette s 0x18 = read_palette s 0x08 ∧
     read_palette s 0x1C = read_palette s 0x0C) ∧
    ∀ addr, 16 ≤ addr → addr < 32 → addr % 4 = 0 →
      read_palette s addr = read_palette s (addr - 16) ∧
      ∀ val, write_palette s addr val = write_palette s (addr - 16) val := by
  constructor
  · refine ⟨?_, ?_, ?_, ?_⟩ <;> simp [read_palette]
  · intro addr h16 h32 h4
    have hc : addr = 16 ∨ addr = 20 ∨ addr = 24 ∨ addr = 28 := by omega
    rcases hc with h | h | h | h <;> subst h <;>
      exact ⟨by simp [read_palette], fun val => by simp [write_palette]⟩

/-- Witness for C5 at a concrete state and address. -/
theorem c5_palette_alias_witness :
    read_palette default_state 0x10 = read_palette default_state 0x00 ∧
    write_palette default_state 20 7 = write_palette default_state 4 7 := by
  refine ⟨(c5_palette_alias default_state).1.1, ?_⟩
  exact ((c5_palette_alias default_state).2 20 (by decide) (by decide) (by decide)).2 7

/-- Balanced-recursion range check: all_below f d base decides whether f
holds everywhere on the interval of length 2^d starting at base * 2^d. -/
def all_below (f : Nat → Bool) : Nat → Nat → Bool
  | 0, base => f base
  | d+1, base => all_below f d (2*base) && all_below f d (2*base+1)

lemma all_below_spec (f : Nat → Bool) :
    ∀ (d base : Nat), all_below f d base = true →
      ∀ i, i < 2^d → f (base * 2^d + i) = true := by
  intro d
  induction d with
  | zero =>
    intro base h i hi
    interval_cases i
    simpa using h
  | succ d ih =>
    intro base h i hi
    rw [all_below, Bool.and_eq_true] at h
    by_cases hc : i < 2^d
    · have hrec := ih (2*base) h.1 i hc
      have harith : 2*base * 2^d + i = base * 2^(d+1) + i := by ring
      rwa [harith] at hrec
    · have hge : 2^d ≤ i := Nat.le_of_not_lt hc
      obtain ⟨j, rfl⟩ := Nat.exists_eq_add_of_le hge
      have hj : j < 2^d := by
        have hpow : 2^(d+1) = 2^d + 2^d := by ring
        omega
      have hrec := ih (2*base+1) h.2 j hj
      have harith : (2*base+1) * 2^d + j = base * 2^(d+1) + (2^d + j) := by ring
      rwa [harith] at hrec

lemma shr_and_eq (v k b : Nat) : (v >>> k) &&& (2^b - 1) = v / 2^k % 2^b := by
  rw [Nat.shiftRight_eq_div_pow, Nat.and_pow_two_sub_one_eq_mod]

lemma and_shl_mask (x m k : Nat) : x &&& (m <<< k) = ((x >>> k) &&& m) <<< k := by
  refine Nat.eq_of_testBit_eq fun i => ?_
  simp only [Nat.testBit_and, Nat.testBit_shiftLeft, Nat.testBit_shiftRight]
  rcases Nat.lt_or_ge i k with h | h
  · have hd : decide (i ≥ k) = false := by simpa using Nat.not_le.mpr h
    simp [hd]
  · have hd : decide (i ≥ k) = true := by simpa using h
    have hik : k + (i - k) = i := by omega
    simp [hd, hik]

lemma fy_eq (v : Nat) : (v >>> 12) &&& 7 = v / 4096 % 8 := by
  have h := shr_and_eq v 12 3
  norm_num at h
  exact h

lemma cy_eq (v : Nat) : (v >>> 5) &&& 31 = v / 32 % 32 := by
  have h := shr_and_eq v 5 5
  norm_num at h
  exact h

lemma and_0x7000 (v : Nat) : v &&& 0x7000 = v / 4096 % 8 * 4096 := by
  have h1 : v &&& 0x7000 = ((v >>> 12) &&& 7) <<< 12 := by
    have := and_shl_mask v 7 12
    norm_num at this
    exact this
  rw [h1, Nat.shiftLeft_eq, fy_eq]

/-- Increment-Y with fine-Y below 7 adds 0x1000 (no u16 wrap possible). -/
lemma c6_fine_lt (v : Nat) (hv : v < 65536) (hf : (v >>> 12) &&& 7 < 7) :
    increment_y v = v + 0x1000 := by
  have hfy := fy_eq v
  have hmask := and_0x7000 v
  have hne : v &&& 0x7000 ≠ 0x7000 := by
    intro he
    rw [hmask] at he
    omega
  rw [increment_y, if_pos hne]
  have hlt : v + 0x1000 < 65536 := by omega
  exact Nat.mod_eq_of_lt hlt

/-- Bool check of the fine-Y = 7 cases of C6, over the 8192 values with
fine-Y = 7 encoded as i with v = i / 4096 * 32768 + 0x7000 + i % 4096. -/
def c6_fine7_check (i : Nat) : Bool :=
  let v := i / 4096 * 32768 + 28672 + i % 4096
  decide ((v >>> 5) &&& 31 = 29 →
    (increment_y v >>> 12) &&& 7 = 0 ∧ (increment_y v >>> 5) &&& 31 = 0 ∧
    increment_y v &&& 0x800 = (v &&& 0x800) ^^^ 0x800 ∧
    increment_y v &&& 0x841F = v &&& 0x841F) &&
  decide ((v >>> 5) &&& 31 = 31 →
    (increment_y v >>> 12) &&& 7 = 0 ∧ (increment_y v >>> 5) &&& 31 = 0 ∧
    increment_y v &&& 0x800 = v &&& 0x800 ∧
    increment_y v &&& 0x841F = v &&& 0x841F) &&
  decide ((v >>> 5) &&& 31 ≠ 29 → (v >>> 5) &&& 31 ≠ 31 →
    (increment_y v >>> 12) &&& 7 = 0 ∧
    (increment_y v >>> 5) &&& 31 = ((v >>> 5) &&& 31) + 1 ∧
    increment_y v &&& 0x8C1F = v &&& 0x8C1F)

set_option maxHeartbeats 2000000 in
lemma c6_fine7_all : all_below c6_fine7_check 13 0 = true := by rfl

lemma c6_decomp (v : Nat) (hv : v < 65536) (h7 : (v >>> 12) &&& 7 = 7) :
    ∃ i, i < 8192 ∧ v = i / 4096 * 32768 + 28672 + i % 4096 := by
  have hfy := fy_eq v
  refine ⟨v / 32768 * 4096 + v % 4096, by omega, by omega⟩

/-- C6: case analysis of increment_y over every 16-bit v: fine-Y below 7
adds 0x1000; fine-Y = 7 clears fine-Y and then either wraps coarse-Y 29 to 0
toggling bit 11, wraps coarse-Y 31 to 0 without toggling, or increments
coarse-Y, leaving all other bits unchanged. -/
theorem c6_increment_y_boundary :
    ∀ v, v < 65536 →
      ((v >>> 12) &&& 7 < 7 → increment_y v = v + 0x1000) ∧
      ((v >>> 12) &&& 7 = 7 → (v >>> 5) &&& 31 = 29 →
        (increment_y v >>> 12) &&& 7 = 0 ∧ (increment_y v >>> 5) &&& 31 = 0 ∧
        increment_y v &&& 0x800 = (v &&& 0x800) ^^^ 0x800 ∧
        increment_y v &&& 0x841F = v &&& 0x841F) ∧
      ((v >>> 12) &&& 7 = 7 → (v >>> 5) &&& 31 = 31 →
        (increment_y v >>> 12) &&& 7 = 0 ∧ (increment_y v >>> 5) &&& 31 = 0 ∧
        increment_y v &&& 0x800 = v &&& 0x800 ∧
        increment_y v &&& 0x841F = v &&& 0x841F) ∧
      ((v >>> 12) &&& 7 = 7 → (v >>> 5) &&& 31 ≠ 29 → (v >>> 5) &&& 31 ≠ 31 →
        (increment_y v >>> 12) &&& 7 = 0 ∧
        (increment_y v >>> 5) &&& 31 = ((v >>> 5) &&& 31) + 1 ∧
        increment_y v &&& 0x8C1F = v &&& 0x8C1F) := by
  intro v hv
  have main : (v >>> 12) &&& 7 = 7 →
      ((v >>> 5) &&& 31 = 29 →
        (increment_y v >>> 12) &&& 7 = 0 ∧ (increment_y v >>> 5) &&& 31 = 0 ∧
        increment_y v &&& 0x800 = (v &&& 0x800) ^^^ 0x800 ∧
        increment_y v &&& 0x841F = v &&& 0x841F) ∧
      ((v >>> 5) &&& 31 = 31 →
        (increment_y v >>> 12) &&& 7 = 0 ∧ (increment_y v >>> 5) &&& 31 = 0 ∧
        increment_y v &&& 0x800 = v &&& 0x800 ∧
        increment_y v &&& 0x841F = v &&& 0x841F) ∧
      ((v >>> 5) &&& 31 ≠ 29 → (v >>> 5) &&& 31 ≠ 31 →
        (increment_y v >>> 12) &&& 7 = 0 ∧
        (increment_y v >>> 5) &&& 31 = ((v >>> 5) &&& 31) + 1 ∧
        increment_y v &&& 0x8C1F = v &&& 0x8C1F) := by
    intro h7
    obtain ⟨i, hi, hvi⟩ := c6_decomp v hv h7
    have hcheck := all_below_spec c6_fine7_check 13 0 c6_fine7_all i (by omega)
    rw [Nat.zero_mul, Nat.zero_add] at hcheck
    simp only [c6_fine7_check, Bool.and_eq_true, decide_eq_true_eq] at hcheck
    rw [← hvi] at hcheck
    exact ⟨hcheck.1.1, hcheck.1.2, hcheck.2⟩
  exact ⟨c6_fine_lt v hv, fun h7 => (main h7).1, fun h7 => (main h7).2.1,
    fun h7 => (main h7).2.2⟩

/-- Witness for C6 at concrete inputs: v = 0x1000 (fine-Y 1) and v = 29600
(fine-Y 7, coarse-Y 29). -/
theorem c6_increment_y_boundary_witness :
    increment_y 0x1000 = 0x2000 ∧ (increment_y 29600 >>> 5) &&& 31 = 0 := by
  constructor
  · have h := (c6_increment_y_boundary 0x1000 (by norm_num)).1 (by decide)
    simpa using h
  · exact ((c6_increment_y_boundary 29600 (by norm_num)).2.1 (by decide) (by decide)).2.1

set_option maxRecDepth 8000 in
/-- C9: write_control stores value AND 2 into the nametable-select flag,
so the documented two-bit select (value AND 3) is not what the code keeps:
at value 3 the flag becomes 2.  The merge of bits 0-1 into t at positions
10-11 does use value AND 3 as documented. -/
theorem c9_write_control_nametable_flag :
    (∀ (s : PPUState) (value : Nat),
        (write_control s value).flg_nametable = value &&& 2 ∧
        (write_control s value).t = (s.t &&& 0xF3FF) ||| ((value &&& 3) <<< 10)) ∧
    (write_register null_mapper () default_state 0x2000 3).1.flg_nametable = 2 ∧
    (write_register null_mapper () default_state 0x2000 3).1.t = 0xC00 := by
  refine ⟨fun s value => ⟨?_, ?_⟩, by decide, by decide⟩ <;>
    (simp only [write_control, nmi_change]; split <;> rfl)

/-- CPU-visible register operation: a write or a read of a PPU MMIO address. -/
inductive RegOp where
  | write (address value : Nat)
  | read (address : Nat)

/-- Written values are bytes (the data bus is 8 bits wide). -/
def RegOp.val_ok : RegOp → Prop
  | .write _ val => val < 256
  | .read _ => True

/-- One register operation acting on the PPU state and the mapper state. -/
def reg_step {a : Type} (mo : MapperOps a) (sm : PPUState × a) (op : RegOp) :
    PPUState × a :=
  match op with
  | .write ad val => write_register mo sm.2 sm.1 ad val
  | .read ad => ((read_register mo sm.2 sm.1 ad).2, sm.2)

/-- A sequence of register operations, applied left to right. -/
def apply_ops {a : Type} (mo : MapperOps a) (ops : List RegOp) (sm : PPUState × a) :
    PPUState × a :=
  ops.foldl (reg_step mo) sm

lemma or_lt_32768 {u v : Nat} (hu : u < 32768) (hv : v < 32768) : u ||| v < 32768 := by
  have h := Nat.or_lt_two_pow (x := u) (y := v) (n := 15)
  norm_num at h
  exact h hu hv

lemma and_32768_eq_zero {u : Nat} (hu : u < 32768) : u &&& 32768 = 0 := by
  have h15 : u < 2^15 := by norm_num; exact hu
  have hbit : u.testBit 15 = false := Nat.testBit_lt_two_pow h15
  have h := Nat.and_two_pow u 15
  rw [hbit] at h
  norm_num at h
  exact h

lemma and_or_right (u v c : Nat) : (u ||| v) &&& c = (u &&& c) ||| (v &&& c) := by
  rw [Nat.and_comm, Nat.and_or_distrib_left, Nat.and_comm c u, Nat.and_comm c v]

/-- High byte surviving a PPUADDR write pair: with bit 15 of t clear, the
first-write t value masked by 0xFF00 is exactly the six loaded high bits. -/
lemma pair_high (t hi : Nat) (ht : t &&& 0x8000 = 0) :
    ((t &&& 0x80FF) ||| ((hi &&& 0x3F) <<< 8)) &&& 0xFF00 = (hi &&& 0x3F) <<< 8 := by
  rw [and_or_right]
  have h1 : (t &&& 0x80FF) &&& 0xFF00 = 0 := by
    rw [Nat.and_assoc]
    have hm : (0x80FF : Nat) &&& 0xFF00 = 0x8000 := by decide
    rw [hm, ht]
  have hball : ∀ y < 64, (y <<< 8) &&& 0xFF00 = y <<< 8 := by decide
  have hb : hi &&& 0x3F < 64 := Nat.lt_of_le_of_lt Nat.and_le_right (by norm_num)
  rw [h1, hball _ hb, Nat.zero_or]

lemma pair_v_lt (hi lo : Nat) (hlo : lo < 256) : ((hi &&& 0x3F) <<< 8) ||| lo < 16384 := by
  have h1 : (hi &&& 0x3F) <<< 8 < 16384 := by
    rw [Nat.shiftLeft_eq]
    have h := Nat.and_le_right (n := hi) (m := 0x3F)
    norm_num
    omega
  have h2 : lo < 16384 := by omega
  have h := Nat.or_lt_two_pow (x := (hi &&& 0x3F) <<< 8) (y := lo) (n := 14)
  norm_num at h
  exact h h1 h2

lemma t_write_control (s : PPUState) (val : Nat) (ht : s.t < 32768) :
    (write_control s val).t < 32768 := by
  have hres : (write_control s val).t = (s.t &&& 0xF3FF) ||| ((val &&& 3) <<< 10) := by
    simp only [write_control, nmi_change]
    split <;> rfl
  rw [hres]
  apply or_lt_32768
  · exact Nat.lt_of_le_of_lt Nat.and_le_left ht
  · rw [Nat.shiftLeft_eq]
    have h := Nat.and_le_right (n := val) (m := 3)
    norm_num
    omega

lemma t_write_scroll (s : PPUState) (val : Nat) (hval : val < 256) (ht : s.t < 32768) :
    (write_scroll s val).t < 32768 := by
  rw [write_scroll]
  split
  · show (s.t &&& 0x7FE0) ||| (val >>> 3) < 32768
    apply or_lt_32768
    · exact Nat.lt_of_le_of_lt Nat.and_le_left ht
    · rw [Nat.shiftRight_eq_div_pow]
      norm_num
      omega
  · show (s.t &&& 0xC1F) ||| ((val &&& 0xF8) <<< 2) ||| ((val &&& 0x7) <<< 12) < 32768
    apply or_lt_32768
    · apply or_lt_32768
      · exact Nat.lt_of_le_of_lt Nat.and_le_left ht
      · rw [Nat.shiftLeft_eq]
        have h := Nat.and_le_right (n := val) (m := 0xF8)
        norm_num
        omega
    · rw [Nat.shiftLeft_eq]
      have h := Nat.and_le_right (n := val) (m := 0x7)
      norm_num
      omega

lemma t_write_address (s : PPUState) (val : Nat) (hval : val < 256) (ht : s.t < 32768) :
    (write_address s val).t < 32768 := by
  rw [write_address]
  split
  · show (s.t &&& 0x80FF) ||| ((val &&& 0x3F) <<< 8) < 32768
    apply or_lt_32768
    · exact Nat.lt_of_le_of_lt Nat.and_le_left ht
    · rw [Nat.shiftLeft_eq]
      have h := Nat.and_le_right (n := val) (m := 0x3F)
      norm_num
      omega
  · show (s.t &&& 0xFF00) ||| val < 32768
    apply or_lt_32768
    · exact Nat.lt_of_le_of_lt Nat.and_le_left ht
    · omega

lemma t_write_data {a : Type} (mo : MapperOps a) (mst : a) (s : PPUState) (val : Nat) :
    (write_data mo mst s val).1.t = s.t := by
  rw [write_data, ppu_write]
  split_ifs <;> simp [nametables_write, write_palette]

lemma t_write_register {a : Type} (mo : MapperOps a) (mst : a) (s : PPUState)
    (ad val : Nat) (hval : val < 256) (ht : s.t < 32768) :
    (write_register mo mst s ad val).1.t < 32768 := by
  rw [write_register]
  split_ifs
  · exact t_write_control _ _ ht
  · simpa [write_mask] using ht
  · simpa [write_oam_address] using ht
  · simpa [write_oam_data] using ht
  · exact t_write_scroll _ _ hval ht
  · exact t_write_address _ _ hval ht
  · rw [t_write_data]; exact ht
  · exact ht

lemma t_read_data {a : Type} (mo : MapperOps a) (mst : a) (s : PPUState) :
    (read_data mo mst s).2.t = s.t := by
  rw [read_data]
  split_ifs <;> rfl

lemma t_read_register {a : Type} (mo : MapperOps a) (mst : a) (s : PPUState) (ad : Nat) :
    (read_register mo mst s ad).2.t = s.t := by
  rw [read_register]
  split_ifs
  · simp only [read_status, nmi_change]
    split <;> rfl
  · rfl
  · exact t_read_data mo mst s
  · rfl

lemma t_reg_step {a : Type} (mo : MapperOps a) (sm : PPUState × a) (op : RegOp)
    (hok : op.val_ok) (ht : sm.1.t < 32768) : (reg_step mo sm op).1.t < 32768 := by
  cases op with
  | write ad val => exact t_write_register mo sm.2 sm.1 ad val hok ht
  | read ad => rw [reg_step, t_read_register]; exact ht

/-- Invariant: bit 15 of t stays clear under every register operation whose
written value is a byte. -/
lemma t_apply_ops {a : Type} (mo : MapperOps a) :
    ∀ (ops : List RegOp) (sm : PPUState × a),
      (∀ op ∈ ops, op.val_ok) → sm.1.t < 32768 →
      (apply_ops mo ops sm).1.t < 32768 := by
  intro ops
  induction ops with
  | nil => intro sm _ ht; simpa [apply_ops] using ht
  | cons op rest ih =>
    intro sm hok ht
    have hstep : apply_ops mo (op :: rest) sm = apply_ops mo rest (reg_step mo sm op) := rfl
    rw [hstep]
    exact ih _ (fun q hq => hok q (List.mem_cons_of_mem _ hq))
      (t_reg_step mo sm op (hok op (List.mem_cons_self op rest)) ht)

/-- The state and mapper after running a sequence of register operations
from the default PPU state. -/
def after_ops {a : Type} (mo : MapperOps a) (ops : List RegOp) (mst : a) :
    PPUState × a :=
  apply_ops mo ops (default_state, mst)

/-- Two consecutive CPU writes to PPUADDR (0x2006). -/
def ppuaddr_pair {a : Type} (mo : MapperOps a) (sm : PPUState × a) (v_hi v_lo : Nat) :
    PPUState × a :=
  let r1 := write_register mo sm.2 sm.1 0x2006 v_hi
  write_register mo r1.2 r1.1 0x2006 v_lo

lemma write_register_0x2006 {a : Type} (mo : MapperOps a) (mst : a) (s : PPUState)
    (val : Nat) :
    write_register mo mst s 0x2006 val = (write_address { s with register := val } val, mst) := by
  rw [write_register]
  norm_num

lemma ppuaddr_pair_spec {a : Type} (mo : MapperOps a) (sm : PPUState × a)
    (v_hi v_lo : Nat) (hw : sm.1.w = 0) (ht : sm.1.t &&& 0x8000 = 0) :
    (ppuaddr_pair mo sm v_hi v_lo).1.v = ((v_hi &&& 0x3F) <<< 8) ||| v_lo ∧
    (ppuaddr_pair mo sm v_hi v_lo).1.t = ((v_hi &&& 0x3F) <<< 8) ||| v_lo ∧
    (ppuaddr_pair mo sm v_hi v_lo).1.w = 0 := by
  obtain ⟨s, mst⟩ := sm
  simp only at hw ht
  have h1 : write_address { s with register := v_hi } v_hi =
      { s with register := v_hi,
               t := (s.t &&& 0x80FF) ||| ((v_hi &&& 0x3F) <<< 8), w := 1 } := by
    rw [write_address]
    simp [hw]
  have h2 : ppuaddr_pair mo (s, mst) v_hi v_lo =
      ({ s with register := v_lo,
                t := (((s.t &&& 0x80FF) ||| ((v_hi &&& 0x3F) <<< 8)) &&& 0xFF00) ||| v_lo,
                v := (((s.t &&& 0x80FF) ||| ((v_hi &&& 0x3F) <<< 8)) &&& 0xFF00) ||| v_lo,
                w := 0 }, mst) := by
    rw [ppuaddr_pair]
    simp only [write_register_0x2006, h1]
    rw [write_address]
    simp
  rw [h2, pair_high s.t v_hi ht]
  exact ⟨rfl, rfl, rfl⟩

/-- C10: from the default state, every sequence of register reads and byte
writes keeps bit 15 of t clear; only PPUCTRL, PPUSCROLL and PPUADDR writes
modify t at all; and a full PPUADDR pair started with w = 0 leaves
v = t at most 0x3FFF. -/
theorem c10_t_bit15_zero :
    (∀ (a : Type) (mo : MapperOps a) (mst : a) (ops : List RegOp),
        (∀ op ∈ ops, op.val_ok) →
        (after_ops mo ops mst).1.t &&& 0x8000 = 0) ∧
    (∀ (a : Type) (mo : MapperOps a) (mst : a) (s : PPUState) (ad val : Nat),
        ad ≠ 0x2000 → ad ≠ 0x2005 → ad ≠ 0x2006 →
        (write_register mo mst s ad val).1.t = s.t) ∧
    (∀ (a : Type) (mo : MapperOps a) (mst : a) (s : PPUState) (ad : Nat),
        (read_register mo mst s ad).2.t = s.t) ∧
    (∀ (a : Type) (mo : MapperOps a) (sm : PPUState × a) (v_hi v_lo : Nat),
        sm.1.w = 0 → sm.1.t &&& 0x8000 = 0 → v_lo < 256 →
        (ppuaddr_pair mo sm v_hi v_lo).1.v = (ppuaddr_pair mo sm v_hi v_lo).1.t ∧
        (ppuaddr_pair mo sm v_hi v_lo).1.t ≤ 0x3FFF) := by
  refine ⟨?_, ?_, ?_, ?_⟩
  · intro a mo mst ops hok
    apply and_32768_eq_zero
    apply t_apply_ops mo ops (default_state, mst) hok
    show default_state.t < 32768
    norm_num [default_state]
  · intro a mo mst s ad val h0 h5 h6
    rw [write_register]
    split_ifs <;> first | omega | rfl | exact t_write_data mo mst _ val
  · intro a mo mst s ad
    exact t_read_register mo mst s ad
  · intro a mo sm v_hi v_lo hw ht hlo
    obtain ⟨hv, hteq, _⟩ := ppuaddr_pair_spec mo sm v_hi v_lo hw ht
    rw [hv, hteq]
    have hlt := pair_v_lt v_hi v_lo hlo
    exact ⟨rfl, by omega⟩

/-- Witness for C10 at a concrete operation list and concrete pair. -/
theorem c10_t_bit15_zero_witness :
    (after_ops null_mapper [RegOp.write 0x2005 0xFF, RegOp.write 0x2005 0xFF] ()).1.t
        &&& 0x8000 = 0 ∧
    (ppuaddr_pair null_mapper (default_state, ()) 0xFF 0xFF).1.v =
      (ppuaddr_pair null_mapper (default_state, ()) 0xFF 0xFF).1.t := by
  constructor
  · exact c10_t_bit15_zero.1 Unit null_mapper ()
      [RegOp.write 0x2005 0xFF, RegOp.write 0x2005 0xFF]
      (by
        intro op hop
        rcases List.mem_cons.mp hop with h | h2
        · subst h; simp only [RegOp.val_ok]; norm_num
        · rcases List.mem_cons.mp h2 with h | h3
          · subst h; simp only [RegOp.val_ok]; norm_num
          · cases h3)
  · exact (c10_t_bit15_zero.2.2.2 Unit null_mapper (default_state, ()) 0xFF 0xFF
      rfl (by decide) (by decide)).1

/-- C2 (amended): on a reachable state whose write toggle is 0, a PPUADDR
write pair loads v = ((v_hi AND 0x3F) shifted left 8) OR v_lo and returns
the toggle to 0.  (With w = 1 the two writes land in opposite halves and the
claim fails, see the counterexample.) -/
theorem c2_ppuaddr_pair_amended (a : Type) (mo : MapperOps a) (mst : a)
    (ops : List RegOp) (hok : ∀ op ∈ ops, op.val_ok) (v_hi v_lo : Nat)
    (_hlo : v_lo < 256) (hw : (after_ops mo ops mst).1.w = 0) :
    (ppuaddr_pair mo (after_ops mo ops mst) v_hi v_lo).1.v =
      ((v_hi &&& 0x3F) <<< 8) ||| v_lo ∧
    (ppuaddr_pair mo (after_ops mo ops mst) v_hi v_lo).1.w = 0 := by
  have ht : (after_ops mo ops mst).1.t &&& 0x8000 = 0 := by
    apply and_32768_eq_zero
    apply t_apply_ops mo ops (default_state, mst) hok
    show default_state.t < 32768
    norm_num [default_state]
  obtain ⟨hv, _, hw2⟩ := ppuaddr_pair_spec mo (after_ops mo ops mst) v_hi v_lo hw ht
  exact ⟨hv, hw2⟩

/-- Counterexample to C2 as stated: the state reached by a single PPUSCROLL
write has w = 1, and from it the PPUADDR pair (0x3F, 0x12) leaves
v = 0x3F and w = 1 instead of v = 0x3F12 and w = 0. -/
theorem c2_ppuaddr_pair_counterexample :
    ¬ ((ppuaddr_pair null_mapper (after_ops null_mapper [RegOp.write 0x2005 0] ())
          0x3F 0x12).1.v = ((0x3F &&& 0x3F) <<< 8) ||| 0x12 ∧
       (ppuaddr_pair null_mapper (after_ops null_mapper [RegOp.write 0x2005 0] ())
          0x3F 0x12).1.w = 0) := by
  decide

/-- Witness for the amended C2 on the empty operation list. -/
theorem c2_ppuaddr_pair_amended_witness :
    (ppuaddr_pair null_mapper (after_ops null_mapper [] ()) 0x21 0x5A).1.v =
      ((0x21 &&& 0x3F) <<< 8) ||| 0x5A ∧
    (ppuaddr_pair null_mapper (after_ops null_mapper [] ()) 0x21 0x5A).1.w = 0 :=
  c2_ppuaddr_pair_amended Unit null_mapper () [] (by intro op hop; cases hop)
    0x21 0x5A (by norm_num) rfl

/-- State after one PPUDATA read (the returned byte is discarded). -/
def read_data_state {a : Type} (mo : MapperOps a) (mst : a) (s : PPUState) : PPUState :=
  (read_data mo mst s).2

lemma read_data_v {a : Type} (mo : MapperOps a) (mst : a) (s : PPUState) :
    (read_data mo mst s).2.v = (s.v + if s.flg_increment = 0 then 1 else 32) % 65536 ∧
    (read_data mo mst s).2.flg_increment = s.flg_increment := by
  rw [read_data]
  split_ifs <;> simp_all

lemma read_data_iter {a : Type} (mo : MapperOps a) (mst : a) :
    ∀ (n : Nat) (s : PPUState), s.flg_increment = 0 → s.v < 65536 →
      ((read_data_state mo mst)^[n] s).v = (s.v + n) % 65536 ∧
      ((read_data_state mo mst)^[n] s).flg_increment = 0 := by
  intro n
  induction n with
  | zero =>
    intro s hinc hv
    simpa using ⟨(Nat.mod_eq_of_lt hv).symm, hinc⟩
  | succ n ih =>
    intro s hinc hv
    have hstep := read_data_v mo mst s
    rw [hinc, if_pos rfl] at hstep
    have hv1 : (read_data_state mo mst s).v = (s.v + 1) % 65536 := hstep.1
    have hinc1 : (read_data_state mo mst s).flg_increment = 0 := by
      rw [read_data_state, hstep.2]
    have hvlt : (read_data_state mo mst s).v < 65536 := by
      rw [hv1]; exact Nat.mod_lt _ (by norm_num)
    have ihh := ih (read_data_state mo mst s) hinc1 hvlt
    rw [Function.iterate_succ_apply]
    refine ⟨?_, ihh.2⟩
    rw [ihh.1, hv1, Nat.mod_add_mod]
    congr 1
    omega

lemma ppuaddr_pair_flg_increment {a : Type} (mo : MapperOps a) (sm : PPUState × a)
    (v_hi v_lo : Nat) :
    (ppuaddr_pair mo sm v_hi v_lo).1.flg_increment = sm.1.flg_increment := by
  rw [ppuaddr_pair]
  simp only [write_register_0x2006]
  simp only [write_address]
  split_ifs <;> rfl

/-- C8 (amended): after loading v through a PPUADDR pair, 0x4000 PPUDATA
reads with the +1 increment leave v congruent to its old value modulo
0x4000 but numerically offset by 0x4000 (the source never masks v back to
14 bits), so v does not return to the same value. -/
theorem c8_read_data_wrap_amended (a : Type) (mo : MapperOps a) (mst : a)
    (ops : List RegOp) (hok : ∀ op ∈ ops, op.val_ok) (v_hi v_lo : Nat)
    (hlo : v_lo < 256) (hw : (after_ops mo ops mst).1.w = 0)
    (hinc : (after_ops mo ops mst).1.flg_increment = 0) :
    ((read_data_state mo (ppuaddr_pair mo (after_ops mo ops mst) v_hi v_lo).2)^[0x4000]
        (ppuaddr_pair mo (after_ops mo ops mst) v_hi v_lo).1).v =
      (ppuaddr_pair mo (after_ops mo ops mst) v_hi v_lo).1.v + 0x4000 ∧
    ((read_data_state mo (ppuaddr_pair mo (after_ops mo ops mst) v_hi v_lo).2)^[0x4000]
        (ppuaddr_pair mo (after_ops mo ops mst) v_hi v_lo).1).v % 0x4000 =
      (ppuaddr_pair mo (after_ops mo ops mst) v_hi v_lo).1.v ∧
    ((read_data_state mo (ppuaddr_pair mo (after_ops mo ops mst) v_hi v_lo).2)^[0x4000]
        (ppuaddr_pair mo (after_ops mo ops mst) v_hi v_lo).1).v ≠
      (ppuaddr_pair mo (after_ops mo ops mst) v_hi v_lo).1.v := by
  have ht : (after_ops mo ops mst).1.t &&& 0x8000 = 0 := by
    apply and_32768_eq_zero
    apply t_apply_ops mo ops (default_state, mst) hok
    show default_state.t < 32768
    norm_num [default_state]
  obtain ⟨hv, -, -⟩ := ppuaddr_pair_spec mo (after_ops mo ops mst) v_hi v_lo hw ht
  have hvlt : (ppuaddr_pair mo (after_ops mo ops mst) v_hi v_lo).1.v < 16384 := by
    rw [hv]; exact pair_v_lt v_hi v_lo hlo
  have hincp : (ppuaddr_pair mo (after_ops mo ops mst) v_hi v_lo).1.flg_increment = 0 := by
    rw [ppuaddr_pair_flg_increment]; exact hinc
  have hiter := read_data_iter mo (ppuaddr_pair mo (after_ops mo ops mst) v_hi v_lo).2
    0x4000 (ppuaddr_pair mo (after_ops mo ops mst) v_hi v_lo).1 hincp (by omega)
  have hval : ((read_data_state mo (ppuaddr_pair mo (after_ops mo ops mst) v_hi v_lo).2)^[0x4000]
      (ppuaddr_pair mo (after_ops mo ops mst) v_hi v_lo).1).v =
      (ppuaddr_pair mo (after_ops mo ops mst) v_hi v_lo).1.v + 0x4000 := by
    rw [hiter.1]
    exact Nat.mod_eq_of_lt (by omega)
  refine ⟨hval, ?_, ?_⟩
  · rw [hval]
    omega
  · rw [hval]
    omega

/-- Counterexample to C8 as stated: from the default state, loading
v = 0x2000 through PPUADDR and doing 0x4000 buffered reads leaves
v = 0x6000, not 0x2000. -/
theorem c8_read_data_wrap_counterexample :
    ((read_data_state null_mapper (ppuaddr_pair null_mapper (after_ops null_mapper [] ())
          0x20 0).2)^[0x4000]
        (ppuaddr_pair null_mapper (after_ops null_mapper [] ()) 0x20 0).1).v ≠
      (ppuaddr_pair null_mapper (after_ops null_mapper [] ()) 0x20 0).1.v :=
  (c8_read_data_wrap_amended Unit null_mapper () [] (by intro op hop; cases hop)
    0x20 0 (by norm_num) rfl rfl).2.2

/-- Witness for the amended C8 on the empty operation list. -/
theorem c8_read_data_wrap_amended_witness :
    ((read_data_state null_mapper (ppuaddr_pair null_mapper (after_ops null_mapper [] ())
          0x20 0).2)^[0x4000]
        (ppuaddr_pair null_mapper (after_ops null_mapper [] ()) 0x20 0).1).v =
      (ppuaddr_pair null_mapper (after_ops null_mapper [] ()) 0x20 0).1.v + 0x4000 :=
  (c8_read_data_wrap_amended Unit null_mapper () [] (by intro op hop; cases hop)
    0x20 0 (by norm_num) rfl rfl).1

/-- Renderer-side state touched by PPU::tick (src/ppu.rs lines 722-748):
the dot position (cycle, scanline), the odd-frame flag f, the register
state (for the NMI countdown and the rendering flags), and a counter of
cpu.set_nmi calls. -/
structure TickState where
  cycle : Nat
  scanline : Nat
  f : Nat
  ppu : PPUState
  cpu_nmi_count : Nat
  deriving Repr, DecidableEq

/-- NMI-delay block at the top of PPU::tick (src/ppu.rs lines 723-729). -/
def tick_nmi (ts : TickState) : TickState :=
  if 0 < ts.ppu.nmi_delay then
    let d := ts.ppu.nmi_delay - 1
    let was_nmi := ts.ppu.nmi_output && ts.ppu.nmi_occurred
    let ts2 := { ts with ppu := { ts.ppu with nmi_delay := d } }
    if d = 0 ∧ was_nmi = true then { ts2 with cpu_nmi_count := ts2.cpu_nmi_count + 1 }
    else ts2
  else ts

/-- Rendering-enabled test of PPU::tick (flg_showbg != 0 or
flg_showsprites != 0). -/
def show_something (s : PPUState) : Bool :=
  (s.flg_showbg != 0) || (s.flg_showsprites != 0)

/-- Position-advance block of PPU::tick (src/ppu.rs lines 730-747). -/
def tick_advance (ts : TickState) : TickState :=
  let should_reset := ts.f = 1 ∧ ts.scanline = 261 ∧ ts.cycle = 339
  if show_something ts.ppu = true ∧ should_reset then
    { ts with cycle := 0, scanline := 0, f := ts.f ^^^ 1 }
  else
    let c := ts.cycle + 1
    if 340 < c then
      let sl := ts.scanline + 1
      if 261 < sl then { ts with cycle := 0, scanline := 0, f := ts.f ^^^ 1 }
      else { ts with cycle := 0, scanline := sl }
    else { ts with cycle := c }

/-- PPU::tick: the NMI-delay block followed by the position advance. -/
def tick (ts : TickState) : TickState := tick_advance (tick_nmi ts)

/-- Bare dot position. -/
structure Pos where
  cycle : Nat
  scanline : Nat
  f : Nat
  deriving Repr, DecidableEq

def TickState.pos (ts : TickState) : Pos := ⟨ts.cycle, ts.scanline, ts.f⟩

/-- Position part of tick, as a function of the rendering-enabled bit. -/
def advance_pos (r : Bool) (p : Pos) : Pos :=
  if r = true ∧ p.f = 1 ∧ p.scanline = 261 ∧ p.cycle = 339 then
    { cycle := 0, scanline := 0, f := p.f ^^^ 1 }
  else
    let c := p.cycle + 1
    if 340 < c then
      let sl := p.scanline + 1
      if 261 < sl then { cycle := 0, scanline := 0, f := p.f ^^^ 1 }
      else { cycle := 0, scanline := sl, f := p.f }
    else { cycle := c, scanline := p.scanline, f := p.f }

lemma tick_nmi_pos (ts : TickState) : (tick_nmi ts).pos = ts.pos := by
  rw [tick_nmi]
  dsimp only
  split_ifs <;> rfl

lemma tick_nmi_flags (ts : TickState) :
    (tick_nmi ts).ppu.flg_showbg = ts.ppu.flg_showbg ∧
    (tick_nmi ts).ppu.flg_showsprites = ts.ppu.flg_showsprites := by
  rw [tick_nmi]
  dsimp only
  split_ifs <;> exact ⟨rfl, rfl⟩

lemma tick_nmi_show (ts : TickState) :
    show_something (tick_nmi ts).ppu = show_something ts.ppu := by
  rw [show_something, show_something, (tick_nmi_flags ts).1, (tick_nmi_flags ts).2]

lemma tick_advance_ppu (ts : TickState) :
    (tick_advance ts).ppu = ts.ppu ∧ (tick_advance ts).cpu_nmi_count = ts.cpu_nmi_count := by
  rw [tick_advance]
  dsimp only
  split_ifs <;> exact ⟨rfl, rfl⟩

lemma tick_advance_pos (ts : TickState) :
    (tick_advance ts).pos = advance_pos (show_something ts.ppu) ts.pos := by
  rw [tick_advance, advance_pos]
  dsimp only [TickState.pos]
  split_ifs <;> rfl

lemma tick_pos (ts : TickState) :
    (tick ts).pos = advance_pos (show_something ts.ppu) ts.pos := by
  rw [tick, tick_advance_pos, tick_nmi_show, tick_nmi_pos]

lemma tick_show (ts : TickState) :
    show_something (tick ts).ppu = show_something ts.ppu := by
  rw [tick, show_something, (tick_advance_ppu (tick_nmi ts)).1, ← show_something,
    tick_nmi_show]

lemma tick_iterate_pos (ts : TickState) :
    ∀ n, ((tick^[n]) ts).pos = ((advance_pos (show_something ts.ppu))^[n]) ts.pos ∧
      show_something ((tick^[n]) ts).ppu = show_something ts.ppu := by
  intro n
  induction n with
  | zero => exact ⟨rfl, rfl⟩
  | succ n ih =>
    rw [Function.iterate_succ_apply', Function.iterate_succ_apply']
    refine ⟨?_, ?_⟩
    · rw [tick_pos, ih.1, ih.2]
    · rw [tick_show, ih.2]

def pos_total (p : Pos) : Nat := p.scanline * 341 + p.cycle

def skip_state (r : Bool) (p : Pos) : Prop :=
  r = true ∧ p.f = 1 ∧ p.scanline = 261 ∧ p.cycle = 339

instance (r : Bool) (p : Pos) : Decidable (skip_state r p) := by
  rw [skip_state]; infer_instance

lemma advance_pos_normal (r : Bool) (p : Pos) (hc : p.cycle ≤ 340) (hs : p.scanline ≤ 261)
    (hskip : ¬ skip_state r p) :
    pos_total (advance_pos r p) = (pos_total p + 1) % 89342 ∧
    (advance_pos r p).cycle ≤ 340 ∧ (advance_pos r p).scanline ≤ 261 := by
  rw [skip_state] at hskip
  rw [advance_pos, if_neg hskip]
  dsimp only
  split_ifs with h1 h2 <;> simp only [pos_total] <;> omega

lemma advance_pos_iter (r : Bool) :
    ∀ (n : Nat) (p : Pos), p.cycle ≤ 340 → p.scanline ≤ 261 →
      (∀ k, k < n → ¬ skip_state r (((advance_pos r)^[k]) p)) →
      pos_total (((advance_pos r)^[n]) p) = (pos_total p + n) % 89342 ∧
      (((advance_pos r)^[n]) p).cycle ≤ 340 ∧ (((advance_pos r)^[n]) p).scanline ≤ 261 := by
  intro n
  induction n with
  | zero =>
    intro p hc hs _
    refine ⟨?_, hc, hs⟩
    rw [Function.iterate_zero_apply]
    have hlt : pos_total p + 0 < 89342 := by simp only [pos_total]; omega
    rw [Nat.mod_eq_of_lt hlt]
    omega
  | succ n ih =>
    intro p hc hs hskip
    have h0 : ¬ skip_state r p := by
      have := hskip 0 (Nat.succ_pos n)
      simpa using this
    obtain ⟨hstep, hc1, hs1⟩ := advance_pos_normal r p hc hs h0
    have hshift : ∀ k, k < n → ¬ skip_state r (((advance_pos r)^[k]) (advance_pos r p)) := by
      intro k hk
      have := hskip (k + 1) (by omega)
      rwa [Function.iterate_succ_apply] at this
    obtain ⟨hres, hcn, hsn⟩ := ih (advance_pos r p) hc1 hs1 hshift
    rw [Function.iterate_succ_apply]
    refine ⟨?_, hcn, hsn⟩
    rw [hres, hstep, Nat.mod_add_mod]
    congr 1
    omega

lemma pos_eq_parts {ts2 : TickState} {q : Pos} (h : ts2.pos = q) :
    ts2.cycle = q.cycle ∧ ts2.scanline = q.scanline ∧ ts2.f = q.f := by
  rw [← h]
  exact ⟨rfl, rfl, rfl⟩

lemma pos_cycle (ts : TickState) : ts.pos.cycle = ts.cycle := rfl

lemma pos_scanline (ts : TickState) : ts.pos.scanline = ts.scanline := rfl

lemma pre_render_progress : ∀ k, k ≤ 339 →
    ((advance_pos true)^[k]) (⟨0, 261, 1⟩ : Pos) = ⟨k, 261, 1⟩ := by
  intro k
  induction k with
  | zero => intro _; rfl
  | succ k ih =>
    intro hk
    rw [Function.iterate_succ_apply', ih (by omega)]
    have hnoskip : ¬ (true = true ∧ (⟨k, 261, 1⟩ : Pos).f = 1 ∧
        (⟨k, 261, 1⟩ : Pos).scanline = 261 ∧ (⟨k, 261, 1⟩ : Pos).cycle = 339) := by
      rintro ⟨-, -, -, hc⟩
      have hc2 : k = 339 := hc
      omega
    rw [advance_pos, if_neg hnoskip]
    dsimp only
    rw [if_neg (by omega : ¬ (340 < k + 1))]

lemma pre_render_skip :
    ((advance_pos true)^[340]) (⟨0, 261, 1⟩ : Pos) = ⟨0, 0, 0⟩ := by
  have h339 := pre_render_progress 339 (by omega)
  have : (340 : Nat) = 339 + 1 := by omega
  rw [this, Function.iterate_succ_apply', h339]
  rw [advance_pos, if_pos ⟨rfl, rfl, rfl, rfl⟩]
  rfl

/-- C3: 341 ticks advance the scanline by exactly one modulo 262 and return
the cycle to its old value, whenever the trajectory never meets the
odd-frame skip state (rendering enabled, f = 1, scanline 261, cycle 339);
the skip state itself resets to (0, 0) flipping f in a single tick, so that
340 ticks starting at cycle 0 of the short pre-render line reach (0, 0). -/
theorem c3_tick_frame_advance :
    (∀ ts : TickState, ts.cycle ≤ 340 → ts.scanline ≤ 261 →
      (∀ k, k < 341 →
        ¬ (show_something ((tick^[k]) ts).ppu = true ∧ ((tick^[k]) ts).f = 1 ∧
            ((tick^[k]) ts).scanline = 261 ∧ ((tick^[k]) ts).cycle = 339)) →
      ((tick^[341]) ts).scanline = (ts.scanline + 1) % 262 ∧
      ((tick^[341]) ts).cycle = ts.cycle) ∧
    (∀ ts : TickState, show_something ts.ppu = true → ts.f = 1 → ts.scanline = 261 →
      ts.cycle = 339 →
      (tick ts).cycle = 0 ∧ (tick ts).scanline = 0 ∧ (tick ts).f = 0) ∧
    (∀ ts : TickState, show_something ts.ppu = true → ts.f = 1 → ts.scanline = 261 →
      ts.cycle = 0 →
      ((tick^[340]) ts).cycle = 0 ∧ ((tick^[340]) ts).scanline = 0 ∧
      ((tick^[340]) ts).f = 0) := by
  refine ⟨?_, ?_, ?_⟩
  · intro ts hc hs hnoskip
    have hns : ∀ k, k < 341 →
        ¬ skip_state (show_something ts.ppu)
          (((advance_pos (show_something ts.ppu))^[k]) ts.pos) := by
      intro k hk hsk
      obtain ⟨hr, hf, hsl, hcy⟩ := hsk
      apply hnoskip k hk
      have hp := (tick_iterate_pos ts k).1
      have hshow := (tick_iterate_pos ts k).2
      obtain ⟨hc2, hs2, hf2⟩ := pos_eq_parts hp
      exact ⟨by rw [hshow, hr], by rw [hf2, hf], by rw [hs2, hsl], by rw [hc2, hcy]⟩
    obtain ⟨htot, hc341, hs341⟩ :=
      advance_pos_iter (show_something ts.ppu) 341 ts.pos hc hs hns
    obtain ⟨hc2, hs2, -⟩ := pos_eq_parts (tick_iterate_pos ts 341).1
    rw [hc2, hs2]
    simp only [pos_total, pos_cycle, pos_scanline] at htot
    constructor <;> omega
  · intro ts hr hf hsl hcy
    have hp := tick_pos ts
    have hstep : advance_pos (show_something ts.ppu) ts.pos = ⟨0, 0, 0⟩ := by
      rw [advance_pos, if_pos ⟨hr, hf, hsl, hcy⟩]
      show (⟨0, 0, ts.f ^^^ 1⟩ : Pos) = ⟨0, 0, 0⟩
      rw [hf]
      rfl
    rw [hstep] at hp
    obtain ⟨h1, h2, h3⟩ := pos_eq_parts hp
    exact ⟨h1, h2, h3⟩
  · intro ts hr hf hsl hcy
    have hp := (tick_iterate_pos ts 340).1
    rw [hr] at hp
    have hpos0 : ts.pos = ⟨0, 261, 1⟩ := by
      rw [TickState.pos, hcy, hsl, hf]
    rw [hpos0] at hp
    rw [pre_render_skip] at hp
    obtain ⟨h1, h2, h3⟩ := pos_eq_parts hp
    exact ⟨h1, h2, h3⟩

/-- Witness for C3: rendering disabled from the origin (341 ticks advance
one scanline), and a one-tick skip at the short pre-render state. -/
theorem c3_tick_frame_advance_witness :
    (((tick^[341]) (⟨0, 0, 0, default_state, 0⟩ : TickState)).scanline = (0 + 1) % 262 ∧
     ((tick^[341]) (⟨0, 0, 0, default_state, 0⟩ : TickState)).cycle = 0) ∧
    (tick (⟨339, 261, 1, { default_state with flg_showbg := 1 }, 0⟩ : TickState)).cycle = 0 := by
  constructor
  · refine c3_tick_frame_advance.1 ⟨0, 0, 0, default_state, 0⟩ (by norm_num) (by norm_num) ?_
    intro k hk hcontra
    have hshow := (tick_iterate_pos (⟨0, 0, 0, default_state, 0⟩ : TickState) k).2
    rw [hcontra.1] at hshow
    exact absurd hshow.symm (by decide)
  · exact (c3_tick_frame_advance.2.1 ⟨339, 261, 1, { default_state with flg_showbg := 1 }, 0⟩
      rfl rfl rfl rfl).1

lemma tick_ppu_nmi (ts : TickState) :
    (tick ts).ppu.nmi_delay = (tick_nmi ts).ppu.nmi_delay ∧
    (tick ts).ppu.nmi_output = (tick_nmi ts).ppu.nmi_output ∧
    (tick ts).ppu.nmi_occurred = (tick_nmi ts).ppu.nmi_occurred ∧
    (tick ts).cpu_nmi_count = (tick_nmi ts).cpu_nmi_count := by
  rw [tick, (tick_advance_ppu (tick_nmi ts)).1, (tick_advance_ppu (tick_nmi ts)).2]
  exact ⟨rfl, rfl, rfl, rfl⟩

lemma tick_nmi_delay (ts : TickState) :
    (tick_nmi ts).ppu.nmi_delay = ts.ppu.nmi_delay - 1 ∨
    (ts.ppu.nmi_delay = 0 ∧ (tick_nmi ts).ppu.nmi_delay = 0) := by
  rw [tick_nmi]
  dsimp only
  split_ifs with h1 h2
  · exact Or.inl rfl
  · exact Or.inl rfl
  · exact Or.inr ⟨by omega, by omega⟩

lemma tick_nmi_keeps (ts : TickState) :
    (tick_nmi ts).ppu.nmi_output = ts.ppu.nmi_output ∧
    (tick_nmi ts).ppu.nmi_occurred = ts.ppu.nmi_occurred := by
  rw [tick_nmi]
  dsimp only
  split_ifs <;> exact ⟨rfl, rfl⟩

lemma tick_nmi_count (ts : TickState) :
    (tick_nmi ts).cpu_nmi_count = ts.cpu_nmi_count +
      (if ts.ppu.nmi_delay = 1 ∧ (ts.ppu.nmi_output && ts.ppu.nmi_occurred) = true
        then 1 else 0) := by
  rw [tick_nmi]
  dsimp only
  rcases Nat.eq_zero_or_pos ts.ppu.nmi_delay with h0 | hpos
  · rw [if_neg (by omega : ¬ 0 < ts.ppu.nmi_delay),
      if_neg (fun hcon => absurd hcon.1 (by omega))]
    omega
  · rw [if_pos hpos]
    by_cases hc : (ts.ppu.nmi_output && ts.ppu.nmi_occurred) = true
    · by_cases hd1 : ts.ppu.nmi_delay = 1
      · rw [if_pos ⟨by omega, hc⟩, if_pos ⟨hd1, hc⟩]
      · rw [if_neg (fun hcon => hd1 (by omega)), if_neg (fun hcon => hd1 hcon.1)]
        dsimp only
        omega
    · rw [if_neg (fun hcon => hc hcon.2), if_neg (fun hcon => hc hcon.2)]
      dsimp only
      omega

lemma tick_delay_sub (ts : TickState) (h : 0 < ts.ppu.nmi_delay) :
    (tick ts).ppu.nmi_delay = ts.ppu.nmi_delay - 1 := by
  rw [(tick_ppu_nmi ts).1]
  rcases tick_nmi_delay ts with hd | ⟨h0, _⟩
  · exact hd
  · omega

lemma tick_count_step (ts : TickState) :
    (tick ts).cpu_nmi_count = ts.cpu_nmi_count +
      (if ts.ppu.nmi_delay = 1 ∧ (ts.ppu.nmi_output && ts.ppu.nmi_occurred) = true
        then 1 else 0) := by
  rw [(tick_ppu_nmi ts).2.2.2, tick_nmi_count]

lemma tick_iter_nmi (ts : TickState)
    (hcond : (ts.ppu.nmi_output && ts.ppu.nmi_occurred) = true)
    (hd : ts.ppu.nmi_delay = 15) :
    ∀ k, ((tick^[k]) ts).ppu.nmi_delay = 15 - k ∧
      ((tick^[k]) ts).ppu.nmi_output = ts.ppu.nmi_output ∧
      ((tick^[k]) ts).ppu.nmi_occurred = ts.ppu.nmi_occurred ∧
      ((tick^[k]) ts).cpu_nmi_count = ts.cpu_nmi_count + (if 15 ≤ k then 1 else 0) := by
  intro k
  induction k with
  | zero => exact ⟨by simpa using hd, rfl, rfl, by norm_num⟩
  | succ k ih =>
    obtain ⟨ihd, iho, ihoc, ihc⟩ := ih
    rw [Function.iterate_succ_apply']
    refine ⟨?_, ?_, ?_, ?_⟩
    · rcases Nat.eq_zero_or_pos ((tick^[k]) ts).ppu.nmi_delay with h0 | hpos
      · rw [(tick_ppu_nmi _).1]
        rcases tick_nmi_delay ((tick^[k]) ts) with hdd | ⟨-, hz⟩
        · rw [hdd, h0]; omega
        · rw [hz]; omega
      · rw [tick_delay_sub _ hpos, ihd]; omega
    · rw [(tick_ppu_nmi _).2.1, (tick_nmi_keeps _).1, iho]
    · rw [(tick_ppu_nmi _).2.2.1, (tick_nmi_keeps _).2, ihoc]
    · rw [tick_count_step, ihc, ihd, iho, ihoc, hcond]
      simp only [eq_self_iff_true, and_true]
      split_ifs <;> omega

/-- C4: nmi_change primes nmi_delay to 15 exactly on a rising edge of
nmi_output AND nmi_occurred; tick decrements a positive delay; the CPU NMI
latch is raised exactly on the tick on which the delay reaches zero with
the condition still true; and from a primed state a run of ticks raises it
exactly once, on the 15th tick. -/
theorem c4_nmi_delay_protocol :
    (∀ s : PPUState, (s.nmi_output && s.nmi_occurred) = true → s.nmi_previous = false →
      (nmi_change s).nmi_delay = 15 ∧ (nmi_change s).nmi_previous = true) ∧
    (∀ s : PPUState, ((s.nmi_output && s.nmi_occurred) = false ∨ s.nmi_previous = true) →
      (nmi_change s).nmi_delay = s.nmi_delay) ∧
    (∀ ts : TickState, 0 < ts.ppu.nmi_delay →
      (tick ts).ppu.nmi_delay = ts.ppu.nmi_delay - 1) ∧
    (∀ ts : TickState, (tick ts).cpu_nmi_count = ts.cpu_nmi_count +
      (if ts.ppu.nmi_delay = 1 ∧ (ts.ppu.nmi_output && ts.ppu.nmi_occurred) = true
        then 1 else 0)) ∧
    (∀ ts : TickState, (ts.ppu.nmi_output && ts.ppu.nmi_occurred) = true →
      ts.ppu.nmi_delay = 15 → ∀ k,
      ((tick^[k]) ts).cpu_nmi_count = ts.cpu_nmi_count + (if 15 ≤ k then 1 else 0)) := by
  refine ⟨?_, ?_, tick_delay_sub, tick_count_step, ?_⟩
  · intro s hcond hprev
    rw [nmi_change]
    dsimp only
    rw [if_pos ⟨hcond, hprev⟩]
    constructor
    · rfl
    · show (s.nmi_output && s.nmi_occurred) = true
      exact hcond
  · intro s hside
    rw [nmi_change]
    dsimp only
    split_ifs with h
    · exfalso
      rcases hside with hf | hp
      · rw [h.1] at hf; cases hf
      · rw [hp] at h; cases h.2
    · rfl
  · intro ts hcond hdel k
    exact (tick_iter_nmi ts hcond hdel k).2.2.2

/-- Witness for C4: a primed state fires the CPU NMI exactly once within
20 ticks, and nmi_change sets the 15-dot delay on a rising edge. -/
theorem c4_nmi_delay_protocol_witness :
    (nmi_change
        { default_state with nmi_output := true, nmi_occurred := true }).nmi_delay = 15 ∧
    ((tick^[20]) (TickState.mk 0 0 0
        { default_state with nmi_output := true, nmi_occurred := true, nmi_delay := 15 }
        0)).cpu_nmi_count = 0 + (if 15 ≤ 20 then 1 else 0) := by
  constructor
  · exact (c4_nmi_delay_protocol.1
      { default_state with nmi_output := true, nmi_occurred := true } rfl rfl).1
  · exact c4_nmi_delay_protocol.2.2.2.2
      (TickState.mk 0 0 0
        { default_state with nmi_output := true, nmi_occurred := true, nmi_delay := 15 } 0)
      rfl rfl 20

/-- Inner packing loop of PPU::fetch_sprite_pattern (src/ppu.rs lines
524-541): 8 rounds, direction chosen by the horizontal-flip attribute.
Byte shifts wrap at u8 and the packed word at u32. -/
def sprite_pack (hflip : Bool) (pal : Nat) : Nat → Nat → Nat → Nat → Nat
  | 0, _, _, data => data
  | fuel+1, low, high, data =>
    if hflip then
      let p1 := low &&& 1
      let p2 := (high &&& 1) <<< 1
      sprite_pack hflip pal fuel (low >>> 1) (high >>> 1)
        (((data <<< 4) % 4294967296) ||| (pal ||| p1 ||| p2))
    else
      let p1 := (low &&& 0x80) >>> 7
      let p2 := (high &&& 0x80) >>> 6
      sprite_pack hflip pal fuel ((low <<< 1) % 256) ((high <<< 1) % 256)
        (((data <<< 4) % 4294967296) ||| (pal ||| p1 ||| p2))

/-- PPU::fetch_sprite_pattern (src/ppu.rs lines 500-543).  The row is an
i32; casting to u16 for the address is modelled by the Euclidean remainder
modulo 65536, and the u16 address sum wraps likewise. -/
def fetch_sprite_pattern {a : Type} (mo : MapperOps a) (mst : a) (s : PPUState)
    (i : Nat) (row : Int) : Nat :=
  let tile := s.oam.getD (i*4+1) 0
  let attributes := s.oam.getD (i*4+2) 0
  let address :=
    if s.flg_spritesize = 0 then
      let row2 := if attributes &&& 0x80 = 0x80 then 7 - row else row
      let table := s.flg_spritetable
      (0x1000 * table + tile * 16 + (row2 % 65536).toNat) % 65536
    else
      let row2 := if attributes &&& 0x80 = 0x80 then 15 - row else row
      let table := tile &&& 1
      let tile2 := tile &&& 0xFE
      let pair := if row2 > 7 then (tile2 + 1, row2 - 8) else (tile2, row2)
      (0x1000 * table + pair.1 * 16 + (pair.2 % 65536).toNat) % 65536
  let pal := (attributes &&& 3) <<< 2
  let low := ppu_read mo mst s address
  let high := ppu_read mo mst s (address + 8)
  sprite_pack (decide (attributes &&& 0x40 = 0x40)) pal 8 low high 0

/-- Sprite-evaluation scratch arrays of the renderer (four parallel
length-8 lists plus the sprite count). -/
structure SpriteEval where
  sprite_patterns : List Nat
  sprite_positions : List Nat
  sprite_priorities : List Nat
  sprite_indices : List Nat
  sprite_count : Nat
  deriving Repr, DecidableEq

/-- Loop body of PPU::evaluate_sprites (src/ppu.rs lines 548-564) for OAM
entry i, acting on the running (count, arrays) accumulator. -/
def eval_step {a : Type} (mo : MapperOps a) (mst : a) (s : PPUState) (scanline : Int)
    (acc : Nat × SpriteEval) (i : Nat) : Nat × SpriteEval :=
  let y := s.oam.getD (i*4) 0
  let a_reg := s.oam.getD (i*4+2) 0
  let x := s.oam.getD (i*4+3) 0
  let row : Int := scanline - (y : Int)
  let h : Int := if s.flg_spritesize = 0 then 8 else 16
  if row < 0 ∨ row ≥ h then acc
  else
    let count := acc.1
    let r := acc.2
    let r2 :=
      if count < 8 then
        { r with
          sprite_patterns := r.sprite_patterns.set count (fetch_sprite_pattern mo mst s i row)
          sprite_positions := r.sprite_positions.set count x
          sprite_priorities := r.sprite_priorities.set count ((a_reg >>> 5) &&& 1)
          sprite_indices := r.sprite_indices.set count i }
      else r
    (count + 1, r2)

/-- PPU::evaluate_sprites (src/ppu.rs lines 545-570): scan the 64 OAM
entries in order, then clamp the count at 8, setting sprite-overflow if it
was exceeded. -/
def evaluate_sprites {a : Type} (mo : MapperOps a) (mst : a) (s : PPUState)
    (scanline : Int) (r0 : SpriteEval) : SpriteEval × PPUState :=
  let res := (List.range 64).foldl (eval_step mo mst s scanline) (0, r0)
  if res.1 > 8 then
    ({ res.2 with sprite_count := 8 }, { s with flg_spriteoverflow := 1 })
  else
    ({ res.2 with sprite_count := res.1 }, s)

/-- OAM entry i covers the given scanline: its row offset is in [0, h). -/
def sprite_in_range (s : PPUState) (scanline : Int) (i : Nat) : Prop :=
  0 ≤ scanline - (s.oam.getD (i*4) 0 : Int) ∧
  scanline - (s.oam.getD (i*4) 0 : Int) < (if s.flg_spritesize = 0 then 8 else 16)

instance (s : PPUState) (scanline : Int) (i : Nat) :
    Decidable (sprite_in_range s scanline i) := by
  rw [sprite_in_range]; infer_instance

/-- The OAM indices (in order) whose sprite covers the scanline. -/
def sprite_hits (s : PPUState) (scanline : Int) : List Nat :=
  (List.range 64).filter (fun i => decide (sprite_in_range s scanline i))

/-- Slot j of the scratch arrays holds the data of OAM entry i. -/
def stored {a : Type} (mo : MapperOps a) (mst : a) (s : PPUState) (scanline : Int)
    (r : SpriteEval) (j i : Nat) : Prop :=
  r.sprite_indices.getD j 0 = i ∧
  r.sprite_positions.getD j 0 = s.oam.getD (i*4+3) 0 ∧
  r.sprite_priorities.getD j 0 = (s.oam.getD (i*4+2) 0 >>> 5) &&& 1 ∧
  r.sprite_patterns.getD j 0 =
    fetch_sprite_pattern mo mst s i (scanline - (s.oam.getD (i*4) 0 : Int))

lemma getD_set_ne (xs : List Nat) (n j : Nat) (hne : n ≠ j) (q : Nat) :
    (xs.set n q).getD j 0 = xs.getD j 0 := by
  rw [List.getD_eq_getElem?_getD, List.getD_eq_getElem?_getD, List.getElem?_set_ne hne]

lemma getD_set_self (xs : List Nat) (n : Nat) (hlt : n < xs.length) (q : Nat) :
    (xs.set n q).getD n 0 = q := by
  rw [List.getD_eq_getElem?_getD, List.getElem?_set_self hlt]
  rfl

lemma getD_append_lt (xs ys : List Nat) (j : Nat) (h : j < xs.length) :
    (xs ++ ys).getD j 0 = xs.getD j 0 := by
  rw [List.getD_eq_getElem?_getD, List.getD_eq_getElem?_getD, List.getElem?_append,
    if_pos h]

lemma getD_append_len (xs ys : List Nat) :
    (xs ++ ys).getD xs.length 0 = ys.getD 0 0 := by
  rw [List.getD_eq_getElem?_getD, List.getD_eq_getElem?_getD, List.getElem?_append,
    if_neg (by omega)]
  simp

lemma eval_fold {a : Type} (mo : MapperOps a) (mst : a) (s : PPUState) (scanline : Int) :
    ∀ (l : List Nat) (count : Nat) (r : SpriteEval) (prev : List Nat),
      r.sprite_patterns.length = 8 → r.sprite_positions.length = 8 →
      r.sprite_priorities.length = 8 → r.sprite_indices.length = 8 →
      count = prev.length →
      (∀ j, j < min count 8 → stored mo mst s scanline r j (prev.getD j 0)) →
      (l.foldl (eval_step mo mst s scanline) (count, r)).1 =
        (prev ++ l.filter (fun i2 => decide (sprite_in_range s scanline i2))).length ∧
      (l.foldl (eval_step mo mst s scanline) (count, r)).2.sprite_patterns.length = 8 ∧
      (l.foldl (eval_step mo mst s scanline) (count, r)).2.sprite_positions.length = 8 ∧
      (l.foldl (eval_step mo mst s scanline) (count, r)).2.sprite_priorities.length = 8 ∧
      (l.foldl (eval_step mo mst s scanline) (count, r)).2.sprite_indices.length = 8 ∧
      (∀ j, j < min (l.foldl (eval_step mo mst s scanline) (count, r)).1 8 →
        stored mo mst s scanline (l.foldl (eval_step mo mst s scanline) (count, r)).2 j
          ((prev ++ l.filter (fun i2 => decide (sprite_in_range s scanline i2))).getD j 0)) := by
  intro l
  induction l with
  | nil =>
    intro count r prev h1 h2 h3 h4 hcnt hinv
    simp only [List.foldl_nil, List.filter_nil, List.append_nil]
    exact ⟨hcnt, h1, h2, h3, h4, hinv⟩
  | cons i l ih =>
    intro count r prev h1 h2 h3 h4 hcnt hinv
    rw [List.foldl_cons]
    by_cases hin : sprite_in_range s scanline i
    · have hfil : (i :: l).filter (fun i2 => decide (sprite_in_range s scanline i2)) =
          i :: l.filter (fun i2 => decide (sprite_in_range s scanline i2)) := by
        simp [List.filter_cons, hin]
      rw [hfil]
      have hcond : ¬ (scanline - (s.oam.getD (i*4) 0 : Int) < 0 ∨
          scanline - (s.oam.getD (i*4) 0 : Int) ≥
            (if s.flg_spritesize = 0 then 8 else 16)) := by
        rw [sprite_in_range] at hin
        omega
      have hstep : eval_step mo mst s scanline (count, r) i =
          (count + 1,
            if count < 8 then
              { r with
                sprite_patterns := r.sprite_patterns.set count
                  (fetch_sprite_pattern mo mst s i (scanline - (s.oam.getD (i*4) 0 : Int)))
                sprite_positions := r.sprite_positions.set count (s.oam.getD (i*4+3) 0)
                sprite_priorities := r.sprite_priorities.set count
                  ((s.oam.getD (i*4+2) 0 >>> 5) &&& 1)
                sprite_indices := r.sprite_indices.set count i }
            else r) := by
        rw [eval_step]
        dsimp only
        rw [if_neg hcond]
      rw [hstep]
      by_cases hc8 : count < 8
      · rw [if_pos hc8]
        have hinv2 : ∀ j, j < min (count + 1) 8 →
            stored mo mst s scanline
              { r with
                sprite_patterns := r.sprite_patterns.set count
                  (fetch_sprite_pattern mo mst s i (scanline - (s.oam.getD (i*4) 0 : Int)))
                sprite_positions := r.sprite_positions.set count (s.oam.getD (i*4+3) 0)
                sprite_priorities := r.sprite_priorities.set count
                  ((s.oam.getD (i*4+2) 0 >>> 5) &&& 1)
                sprite_indices := r.sprite_indices.set count i }
              j ((prev ++ [i]).getD j 0) := by
          intro j hj
          rcases Nat.lt_or_ge j count with hjc | hjc
          · have hjprev : j < prev.length := by omega
            rw [getD_append_lt prev [i] j hjprev]
            have hold := hinv j (by omega)
            simp only [stored] at hold ⊢
            obtain ⟨e1, e2, e3, e4⟩ := hold
            refine ⟨?_, ?_, ?_, ?_⟩
            · rw [getD_set_ne _ _ _ (by omega)]; exact e1
            · rw [getD_set_ne _ _ _ (by omega)]; exact e2
            · rw [getD_set_ne _ _ _ (by omega)]; exact e3
            · rw [getD_set_ne _ _ _ (by omega)]; exact e4
          · have hj_eq : j = count := by omega
            have hrhs : (prev ++ [i]).getD j 0 = i := by
              rw [hj_eq, hcnt, getD_append_len]
              simp [List.getD]
            rw [hrhs]
            simp only [stored]
            refine ⟨?_, ?_, ?_, ?_⟩
            · rw [hj_eq, getD_set_self _ _ (by omega)]
            · rw [hj_eq, getD_set_self _ _ (by omega)]
            · rw [hj_eq, getD_set_self _ _ (by omega)]
            · rw [hj_eq, getD_set_self _ _ (by omega)]
        have hres := ih (count + 1)
          { r with
            sprite_patterns := r.sprite_patterns.set count
              (fetch_sprite_pattern mo mst s i (scanline - (s.oam.getD (i*4) 0 : Int)))
            sprite_positions := r.sprite_positions.set count (s.oam.getD (i*4+3) 0)
            sprite_priorities := r.sprite_priorities.set count
              ((s.oam.getD (i*4+2) 0 >>> 5) &&& 1)
            sprite_indices := r.sprite_indices.set count i }
          (prev ++ [i])
          (by simpa using h1) (by simpa using h2) (by simpa using h3) (by simpa using h4)
          (by simp [hcnt]) hinv2
        obtain ⟨g1, g2, g3, g4, g5, g6⟩ := hres
        rw [List.append_assoc] at g1 g6
        refine ⟨by simpa using g1, g2, g3, g4, g5, ?_⟩
        intro j hj
        have hg := g6 j hj
        simpa using hg
      · rw [if_neg hc8]
        have hinv2 : ∀ j, j < min (count + 1) 8 →
            stored mo mst s scanline r j ((prev ++ [i]).getD j 0) := by
          intro j hj
          have hjprev : j < prev.length := by omega
          rw [getD_append_lt prev [i] j hjprev]
          exact hinv j (by omega)
        have hres := ih (count + 1) r (prev ++ [i]) h1 h2 h3 h4 (by simp [hcnt]) hinv2
        obtain ⟨g1, g2, g3, g4, g5, g6⟩ := hres
        rw [List.append_assoc] at g1 g6
        refine ⟨by simpa using g1, g2, g3, g4, g5, ?_⟩
        intro j hj
        have hg := g6 j hj
        simpa using hg
    · have hfil : (i :: l).filter (fun i2 => decide (sprite_in_range s scanline i2)) =
          l.filter (fun i2 => decide (sprite_in_range s scanline i2)) := by
        simp [List.filter_cons, hin]
      rw [hfil]
      have hcond : scanline - (s.oam.getD (i*4) 0 : Int) < 0 ∨
          scanline - (s.oam.getD (i*4) 0 : Int) ≥
            (if s.flg_spritesize = 0 then 8 else 16) := by
        rw [sprite_in_range] at hin
        omega
      have hstep : eval_step mo mst s scanline (count, r) i = (count, r) := by
        rw [eval_step]
        dsimp only
        rw [if_pos hcond]
      rw [hstep]
      exact ih count r prev h1 h2 h3 h4 hcnt hinv

/-- C7: evaluate_sprites scans the 64 OAM entries in order; the first (up
to) eight in-range entries have their pattern, X, priority bit and OAM
index stored in slot order; the count is the number of in-range entries
clamped to 8; sprite-overflow is set exactly when more than eight entries
are in range, and is untouched otherwise. -/
theorem c7_evaluate_sprites (a : Type) (mo : MapperOps a) (mst : a) (s : PPUState)
    (scanline : Int) (r0 : SpriteEval)
    (h1 : r0.sprite_patterns.length = 8) (h2 : r0.sprite_positions.length = 8)
    (h3 : r0.sprite_priorities.length = 8) (h4 : r0.sprite_indices.length = 8) :
    (evaluate_sprites mo mst s scanline r0).1.sprite_count =
      min (sprite_hits s scanline).length 8 ∧
    (∀ j, j < min (sprite_hits s scanline).length 8 →
      stored mo mst s scanline (evaluate_sprites mo mst s scanline r0).1 j
        ((sprite_hits s scanline).getD j 0)) ∧
    (evaluate_sprites mo mst s scanline r0).2.flg_spriteoverflow =
      (if 8 < (sprite_hits s scanline).length then 1 else s.flg_spriteoverflow) := by
  have hres := eval_fold mo mst s scanline (List.range 64) 0 r0 [] h1 h2 h3 h4 rfl
    (by intro j hj; omega)
  obtain ⟨g1, g2, g3, g4, g5, g6⟩ := hres
  have ghits : ([] ++ (List.range 64).filter
      (fun i2 => decide (sprite_in_range s scanline i2))) = sprite_hits s scanline := by
    rw [sprite_hits, List.nil_append]
  rw [ghits] at g1 g6
  rw [evaluate_sprites]
  dsimp only
  split_ifs
  · rename_i hc hov
    refine ⟨?_, ?_, ?_⟩
    · show (8 : Nat) = min (sprite_hits s scanline).length 8
      omega
    · intro j hj
      have hg := g6 j (by omega)
      simp only [stored] at hg ⊢
      exact hg
    · rfl
  · rename_i hc hov
    exfalso
    omega
  · rename_i hc hov
    exfalso
    omega
  · rename_i hc hov
    refine ⟨?_, ?_, ?_⟩
    · show ((List.range 64).foldl (eval_step mo mst s scanline) (0, r0)).1 =
        min (sprite_hits s scanline).length 8
      omega
    · intro j hj
      have hg := g6 j (by omega)
      simp only [stored] at hg ⊢
      exact hg
    · rfl

/-- Witness for C7 on the all-zero OAM at scanline 0 (all 64 sprites are in
range, so the count clamps at 8 and overflow is raised). -/
theorem c7_evaluate_sprites_witness :
    (evaluate_sprites null_mapper () default_state 0
        (SpriteEval.mk (List.replicate 8 0) (List.replicate 8 0) (List.replicate 8 0)
          (List.replicate 8 0) 0)).1.sprite_count =
      min (sprite_hits default_state 0).length 8 ∧
    (evaluate_sprites null_mapper () default_state 0
        (SpriteEval.mk (List.replicate 8 0) (List.replicate 8 0) (List.replicate 8 0)
          (List.replicate 8 0) 0)).2.flg_spriteoverflow =
      (if 8 < (sprite_hits default_state 0).length then 1
        else default_state.flg_spriteoverflow) := by
  have h := c7_evaluate_sprites Unit null_mapper () default_state 0
    (SpriteEval.mk (List.replicate 8 0) (List.replicate 8 0) (List.replicate 8 0)
      (List.replicate 8 0) 0)
    (by simp) (by simp) (by simp) (by simp)
  exact ⟨h.1, h.2.2⟩

end Ludus
